import Mathlib

/- Verification of the eGrovity HR front-end (React/JavaScript) against its
   natural-language specification.

   Modelling conventions for the shallow embedding:
   * JS strings are Lean `String`; JS numbers are `ℚ` (the embedded code only
     compares numbers against the integer bounds 0 and 100, so every real JS
     number behaviour has a `ℚ` representative; `NaN` is encoded as `none`
     of `Option ℚ`).
   * The JS builtin `Number` coercion on arbitrary strings is kept abstract:
     definitions that call it take a parameter `jsNum : String → Option ℚ`
     (`none` = NaN) and the theorems hold for every such coercion.
   * JSON-ish response values are the inductive `JVal`; JS `undefined` is
     `Option.none` wherever it can occur.
-/

namespace EGrovity

/-- JSON-like JS values as they appear in HTTP response bodies and table rows.
Numbers are restricted to `Int`, which covers every value these components
compare or stringify. `undefined` is modelled by `Option JVal` at use sites. -/
inductive JVal where
  | jnull : JVal
  | jbool : Bool → JVal
  | jnum : Int → JVal
  | jstr : String → JVal
  | jarr : List JVal → JVal
  | jobj : List (String × JVal) → JVal

/-- JS truthiness of a defined value. -/
def truthy : JVal → Bool
  | .jnull => false
  | .jbool b => b
  | .jnum n => n != 0
  | .jstr s => s != ""
  | .jarr _ => true
  | .jobj _ => true

/-- JS truthiness of a possibly-undefined value (undefined is falsy). -/
def truthyOpt : Option JVal → Bool
  | some v => truthy v
  | none => false

/-- JS property access `v.k`: defined only on objects, `undefined` (= `none`)
otherwise. -/
def jsField : JVal → String → Option JVal
  | .jobj fields, k => fields.lookup k
  | _, _ => none

/-- JS nullish coalescing `v ?? d` on a possibly-undefined value: both
`undefined` and `null` fall through to the default. -/
def nullishD (v : Option JVal) (d : JVal) : JVal :=
  match v with
  | some .jnull => d
  | none => d
  | some x => x

/-- First occurrence of `sep` in a character list: `some (before, after)`
where `before` is the part preceding the first occurrence and `after` what
follows it, `none` when `sep` does not occur (callers use non-empty `sep`). -/
def findSplit (sep : List Char) : List Char → Option (List Char × List Char)
  | [] => none
  | c :: cs =>
    if sep.isPrefixOf (c :: cs) then some ([], (c :: cs).drop sep.length)
    else
      match findSplit sep cs with
      | some (p, r) => some (c :: p, r)
      | none => none

/-- Fuel-driven worker for JS `String.prototype.split` with a non-empty
separator; the fuel `l.length + 1` always suffices because the remainder
shrinks at every found occurrence. -/
def splitAux (sep : List Char) : Nat → List Char → List (List Char)
  | 0, l => [l]
  | n + 1, l =>
    match findSplit sep l with
    | none => [l]
    | some (p, r) => p :: splitAux sep n r

/-- JS `s.split(sep)` for a non-empty separator. -/
def jsSplit (s sep : String) : List String :=
  (splitAux sep.data (s.data.length + 1) s.data).map List.asString

/-- JS `s.includes(sub)`. -/
def jsIncludes (s sub : String) : Bool :=
  if sub.data.isEmpty then true else (findSplit sub.data s.data).isSome

/-- JS `s.toLowerCase()` (character-wise, which covers the ASCII role and
search strings these components compare). -/
def jsToLower (s : String) : String :=
  (s.data.map Char.toLower).asString

section RouteGating

/- src/unnamed/part_002 (routes config), entry "/employee-lifecycle/history":
   the element reads localStorage role, lowercases it, and renders the
   history view for "admin", otherwise a redirect to /dashboard. -/

/-- What the `/employee-lifecycle/history` route element renders. -/
inductive RouteElem where
  | historyView : RouteElem
  | redirect : String → RouteElem
  deriving DecidableEq

/-- Element of the `/employee-lifecycle/history` route
(src/unnamed/part_002, lines 157-166): `role?.toLowerCase() === "admin"`
picks the history view, anything else redirects to `/dashboard`
(a missing role gives `undefined`, which is not `"admin"`). -/
def lifecycleHistoryRoute (role : Option String) : RouteElem :=
  match role with
  | some r => if jsToLower r = "admin" then .historyView else .redirect "/dashboard"
  | none => .redirect "/dashboard"

end RouteGating

section AddNewModalModel

/- src/unnamed/part_001, AddNewModal (lines 494-604): form-field updates. -/

/-- Values held by the generic add/edit modal's form state. -/
inductive FormVal where
  | num : ℚ → FormVal
  | str : String → FormVal
  | list : List ℚ → FormVal
  deriving DecidableEq

/-- Select-field onChange of AddNewModal: writes `Number(e.target.value)`
under the field's key (wrapped in a singleton list for the `managers` key,
empty when the value is falsy), and additionally clears `managers` when the
changed key is `department_id`. -/
def selectChange (form : String → FormVal) (key : String) (value : ℚ) :
    String → FormVal :=
  let updated := Function.update form key
    (if key = "managers" then
       (if value ≠ 0 then FormVal.list [value] else FormVal.list [])
     else FormVal.num value)
  if key = "department_id" then Function.update updated "managers" (FormVal.list [])
  else updated

/-- Input-field onChange of AddNewModal: writes the typed string under the
field's key. -/
def inputChange (form : String → FormVal) (key : String) (value : String) :
    String → FormVal :=
  Function.update form key (FormVal.str value)

end AddNewModalModel

section DeactivateModal

/- src/unnamed/part_001, DeactivateDepartmentModal (lines 651-741).
   The Deactivate button computes
     disabled={!reason || loading || previewLoading || !confirmed}
   with JS short-circuit evaluation; `confirmed` is bound nowhere in the
   component, so resolving it throws a ReferenceError. -/

/-- Boolean expressions as they appear in the `disabled` prop. -/
inductive BoolExpr where
  | ident : String → BoolExpr
  | bnot : BoolExpr → BoolExpr
  | bor : BoolExpr → BoolExpr → BoolExpr

/-- JS evaluation of a boolean expression over truthiness of identifiers:
`||` short-circuits left to right, an identifier missing from the
environment raises a reference error carrying its name. -/
def evalBE (env : String → Option Bool) : BoolExpr → Except String Bool
  | .ident n =>
    match env n with
    | some b => .ok b
    | none => .error n
  | .bnot e => do
    let b ← evalBE env e
    pure (!b)
  | .bor a b => do
    let x ← evalBE env a
    if x then pure true else evalBE env b

/-- The Deactivate button's `disabled` expression
`!reason || loading || previewLoading || !confirmed` (JS `||` is
left-associative). -/
def deactivateDisabledExpr : BoolExpr :=
  .bor (.bor (.bor (.bnot (.ident "reason")) (.ident "loading"))
    (.ident "previewLoading"))
    (.bnot (.ident "confirmed"))

/-- Every identifier bound in DeactivateDepartmentModal's scope: its four
props and its React state bindings. `confirmed` is not among them. -/
def deactivateModalScope : List String :=
  ["department", "onConfirm", "onCancel", "loading",
   "preview", "setPreview", "previewLoading", "setPreviewLoading",
   "reason", "setReason"]

/-- Truthiness environment of a render of DeactivateDepartmentModal, with
the truthiness of the `reason` string already computed: `loading` and
`previewLoading` are the two boolean flags, every other in-scope binding is
defined (its truthiness is irrelevant to the disabled expression), and
out-of-scope names are unresolvable. -/
def deactivateModalEnvB (reasonTruthy loading previewLoading : Bool) :
    String → Option Bool :=
  fun n =>
    if n = "reason" then some reasonTruthy
    else if n = "loading" then some loading
    else if n = "previewLoading" then some previewLoading
    else if n ∈ deactivateModalScope then some true
    else none

/-- Truthiness environment of a render of DeactivateDepartmentModal:
`reason` is the typed reason string (truthy iff non-empty). -/
def deactivateModalEnv (reason : String) (loading previewLoading : Bool) :
    String → Option Bool :=
  deactivateModalEnvB (reason != "") loading previewLoading

end DeactivateModal

section WeeklyEvaluationForm

/- src/unnamed/part_000: the PerformanceMetrics weekly-evaluation form. -/

/-- Decimal digit character for `n < 10` (any larger argument is only ever
produced by `n % 10`). -/
def digitChar : Nat → Char
  | 0 => '0'
  | 1 => '1'
  | 2 => '2'
  | 3 => '3'
  | 4 => '4'
  | 5 => '5'
  | 6 => '6'
  | 7 => '7'
  | 8 => '8'
  | _ => '9'

/-- Decimal digits of a natural number — JS `String(n)` as interpolated by
`formatWeekValue` for the year and week numbers. -/
def decDigits (n : Nat) : List Char :=
  if _h : n < 10 then [digitChar n]
  else decDigits (n / 10) ++ [digitChar (n % 10)]
termination_by n
decreasing_by exact Nat.div_lt_self (by omega) (by omega)

/-- JS `String(week).padStart(2, "0")`. -/
def padStart2 (l : List Char) : List Char :=
  List.replicate (2 - l.length) '0' ++ l

/-- `formatWeekValue` (part_000 lines 10-11):
the template string `year + "-W" + String(week).padStart(2, "0")`. -/
def formatWeekValue (year week : Nat) : String :=
  (decDigits year ++ '-' :: 'W' :: padStart2 (decDigits week)).asString

/-- Numeric value of a list of decimal digit characters; reference value of
JS `Number` on all-digit strings. -/
def digitsVal (l : List Char) : Nat :=
  l.foldl (fun a c => 10 * a + (c.toNat - 48)) 0

/-- The assumption that a `Number` coercion is correct on non-empty
all-digit strings — the real JS builtin satisfies it. -/
def NumOnDigits (jsNum : String → Option ℚ) : Prop :=
  ∀ s : String, s.data ≠ [] →
    (∀ c ∈ s.data, 48 ≤ c.toNat ∧ c.toNat ≤ 57) →
    jsNum s = some ((digitsVal s.data : Nat) : ℚ)

/-- A sample `Number` coercion used by witnesses: parses non-empty
all-digit strings, NaN on everything else. -/
def jsNumDigits (s : String) : Option ℚ :=
  if s.data ≠ [] ∧ ∀ c ∈ s.data, 48 ≤ c.toNat ∧ c.toNat ≤ 57 then
    some ((digitsVal s.data : Nat) : ℚ)
  else none

/-- A JS value that is a number, NaN or null — the shape of `parseWeek`'s
year/week results (`none` of `Option ℚ` is NaN). -/
inductive NumOrNull where
  | null : NumOrNull
  | nan : NumOrNull
  | num : ℚ → NumOrNull
  deriving DecidableEq

/-- A `Number` coercion result as a `NumOrNull`. -/
def ofJsNum : Option ℚ → NumOrNull
  | none => .nan
  | some q => .num q

/-- Result shape of `parseWeek`. -/
structure ParsedWeek where
  year : NumOrNull
  week : NumOrNull
  deriving DecidableEq

/-- `parseWeek` (part_000 lines 273-277): empty or `-W`-free strings give
`{year: null, week: null}`; otherwise the string is split on `-W` and the
first two parts are coerced with `Number`. The last match arm is
unreachable: a passed `includes` check guarantees at least two parts. -/
def parseWeek (jsNum : String → Option ℚ) (weekValue : String) : ParsedWeek :=
  if weekValue = "" ∨ jsIncludes weekValue "-W" = false then ⟨.null, .null⟩
  else
    match jsSplit weekValue "-W" with
    | y :: w :: _ => ⟨ofJsNum (jsNum y), ofJsNum (jsNum w)⟩
    | _ => ⟨.nan, .nan⟩

/-- `value.length > 1 && value[0] === "0" ? (value.replace(/^0+/, "") || "0")
: value` — the leading-zero stripping step of handleScoreChange. -/
def stripLeadingZeros (v : String) : String :=
  if 1 < v.data.length ∧ v.data.head? = some '0' then
    let stripped := v.data.dropWhile (fun c => c == '0')
    if stripped.isEmpty then "0" else stripped.asString
  else v

/-- State of the form's unified validation modal. -/
structure ModalState where
  shown : Bool
  message : String
  deriving DecidableEq

/-- `handleScoreChange` (part_000 lines 504-547): empty string and "0" are
stored directly; otherwise leading zeros are stripped, and the value is
stored when its `Number` coercion lies in [0, 100], while NaN/negative
values and values above 100 open the validation modal and leave the scores
untouched. Returns the new scores array and modal state. -/
def handleScoreChange (jsNum : String → Option ℚ) (scores : List String)
    (modal : ModalState) (index : Nat) (value : String) :
    List String × ModalState :=
  if value = "" then (scores.set index "", modal)
  else if value = "0" then (scores.set index "0", modal)
  else
    let value2 := stripLeadingZeros value
    match jsNum value2 with
    | none =>
      (scores, ⟨true, "Please enter a valid number between 0 and 100."⟩)
    | some num =>
      if num < 0 then
        (scores, ⟨true, "Please enter a valid number between 0 and 100."⟩)
      else if num > 100 then
        (scores, ⟨true, "Score cannot exceed 100."⟩)
      else (scores.set index value2, modal)

/-- JS `s.trim()` (the form only trims spaces around employee IDs). -/
def jsTrim (s : String) : String :=
  (((s.data.dropWhile (fun c => c == ' ')).reverse.dropWhile
      (fun c => c == ' ')).reverse).asString

/-- HTTP method of the evaluation submission. -/
inductive HttpMethod where
  | put : HttpMethod
  | post : HttpMethod
  deriving DecidableEq

/-- The modelled fields of handleSubmit's request payload (evaluation_type,
review_date, remarks and the per-measurement metrics object are not needed
by any claim and are omitted). -/
structure EvalPayload where
  employee : String
  year : NumOrNull
  weekNumber : NumOrNull
  totalScore : ℚ
  deriving DecidableEq

/-- Outcome of handleSubmit: a validation modal or an HTTP request. -/
inductive SubmitResult where
  | modal : String → SubmitResult
  | request : HttpMethod → EvalPayload → SubmitResult
  deriving DecidableEq

/-- The component state read by handleSubmit. `measurements` is the list of
active measurement names, `userRole` the role string resolved from local
storage (before lowercasing), `evaluationId` the loaded evaluation id. -/
structure SubmitState where
  employeeId : String
  employeeName : String
  scores : List String
  measurements : List String
  userRole : String
  selectedWeek : String
  evaluationId : Option Nat
  mode : String

/-- The six submission guards of handleSubmit, stated as the spec reads
them: an employee ID is set, the employee name is loaded, one non-empty
score per active measurement, every score coerces to a number in [0, 100],
the stored role lowercases to admin or manager, and a week is selected. -/
def submitGuards (jsNum : String → Option ℚ) (st : SubmitState) : Prop :=
  st.employeeId ≠ "" ∧ st.employeeName ≠ "" ∧
  st.scores.length = st.measurements.length ∧
  (∀ s ∈ st.scores, s ≠ "") ∧
  (∀ s ∈ st.scores, ∃ n, jsNum s = some n ∧ 0 ≤ n ∧ n ≤ 100) ∧
  (jsToLower st.userRole = "admin" ∨ jsToLower st.userRole = "manager") ∧
  st.selectedWeek ≠ ""

/-- `isNaN(s) || s < 0 || s > 100` for a score string (JS coerces the
string to a number for all three tests). -/
def scoreInvalid (jsNum : String → Option ℚ) (s : String) : Bool :=
  match jsNum s with
  | none => true
  | some n => decide (n < 0) || decide (n > 100)

/-- JS truthiness of an optional numeric id. -/
def optIdTruthy : Option Nat → Bool
  | some n => n != 0
  | none => false

/-- `handleSubmit` (part_000 lines 700-788): the six validation guards in
source order, then the payload build (`total_score` is
`scores.reduce((sum, val) => sum + (Number(val) || 0), 0)`, and
`Number(val) || 0` equals `(jsNum val).getD 0` because a falsy coerced
number is 0 itself) and the PUT/POST choice
`evaluationId && mode === "edit"`. -/
def handleSubmit (jsNum : String → Option ℚ) (st : SubmitState) :
    SubmitResult :=
  if st.employeeId = "" then
    .modal "Please search and select an employee first."
  else if st.employeeName = "" then
    .modal "Please search and load employee details before entering performance metrics."
  else if ¬ (st.scores.length = st.measurements.length ∧
      st.scores.all (fun s => s != "") = true) then
    .modal "Please fill all performance metrics before submitting."
  else if st.scores.any (scoreInvalid jsNum) then
    .modal "All scores must be valid numbers between 0 and 100."
  else if ¬ (jsToLower st.userRole = "admin" ∨
      jsToLower st.userRole = "manager") then
    .modal "Only Admin or Manager can submit evaluations."
  else if st.selectedWeek = "" then
    .modal "Please select a week for evaluation."
  else
    let parsed := parseWeek jsNum st.selectedWeek
    let payload : EvalPayload :=
      { employee := jsTrim st.employeeId
        year := parsed.year
        weekNumber := parsed.week
        totalScore := st.scores.foldl
          (fun sum val => sum + ((jsNum val).getD 0)) 0 }
    if optIdTruthy st.evaluationId ∧ st.mode = "edit" then
      .request .put payload
    else .request .post payload

end WeeklyEvaluationForm

section BackendErrorExtraction

/- src/unnamed/part_000, extractBackendError (lines 442-457). -/

/-- JS `typeof v === "object"` for a defined value (null and arrays are
objects too). -/
def typeofObject : JVal → Bool
  | .jnull => true
  | .jarr _ => true
  | .jobj _ => true
  | _ => false

/-- `v[Object.keys(v)[0]]`: the first field's value of an object, the first
element of an array, `undefined` when there are no keys. -/
def firstFieldValue : JVal → Option JVal
  | .jobj fields => fields.head?.map Prod.snd
  | .jarr xs => xs.head?
  | _ => none

/-- `data?.k` on the possibly-undefined response data. -/
def jsGetOpt (data : Option JVal) (k : String) : Option JVal :=
  data.bind (fun d => jsField d k)

/-- `data?.errors && typeof data.errors === "object"`. -/
def errorsIsObject (data : Option JVal) : Bool :=
  match jsGetOpt data "errors" with
  | some e => truthy e && typeofObject e
  | none => false

/-- The tail of the chain: `if (typeof data === "string") return data;
return "Unable to process your request. Please try again.";`. -/
def stringOrFallback : Option JVal → Option JVal
  | some (.jstr s) => some (.jstr s)
  | _ => some (.jstr "Unable to process your request. Please try again.")

/-- `extractBackendError` (part_000 lines 442-457), applied to
`err?.response?.data` (`none` = the error carried no response data). The
result is the message value, or `none` for the JS `undefined` produced by
an empty `errors` object. -/
def extractBackendError (data : Option JVal) : Option JVal :=
  if errorsIsObject data then (jsGetOpt data "errors").bind firstFieldValue
  else if truthyOpt (jsGetOpt data "detail") then jsGetOpt data "detail"
  else if truthyOpt (jsGetOpt data "message") then jsGetOpt data "message"
  else stringOrFallback data

end BackendErrorExtraction

section MasterDataContextModel

/- src/frontend/src/context/MasterDataContext.js, loadMasters
   (lines 21-57). -/

/-- A `masters/dropdown/` request: the master type and status filter sent
as query parameters. -/
structure DropdownRequest where
  mtype : String
  status : String
  deriving DecidableEq

/-- The four master types loadMasters iterates over, in source order. -/
def masterTypes : List String := ["ROLE", "DEPARTMENT", "PROJECT", "MEASUREMENT"]

/-- A mapped master item: `{ id: item.value, name: item.label,
code: item.code ?? null, status: item.status ?? "Active" }`. -/
structure MasterItem where
  id : Option JVal
  name : Option JVal
  code : JVal
  status : JVal

/-- The item mapping applied to each dropdown entry. -/
def mapDropdownItem (item : JVal) : MasterItem :=
  { id := jsField item "value"
    name := jsField item "label"
    code := nullishD (jsField item "code") .jnull
    status := nullishD (jsField item "status") (.jstr "Active") }

/-- `responses[idx].data?.results ?? responses[idx].data ?? []` followed by
the `Array.isArray` guard: the list of raw dropdown items of one response
body. -/
def extractItems (data : JVal) : List JVal :=
  match nullishD (jsField data "results")
      (match data with | .jnull => .jarr [] | d => d) with
  | .jarr xs => xs
  | _ => []

/-- One response body mapped to master items. -/
def mapResponse (data : JVal) : List MasterItem :=
  (extractItems data).map mapDropdownItem

/-- The `masters` context state: one list per master type. -/
structure MastersState where
  role : List MasterItem
  department : List MasterItem
  project : List MasterItem
  measurement : List MasterItem

/-- Observable outcome of one `loadMasters` call: the dropdown requests it
issued, the resulting `masters` state and the loaded-once flag. -/
structure LoadResult where
  requests : List DropdownRequest
  masters : MastersState
  loadedOnce : Bool

/-- `loadMasters` (MasterDataContext.js lines 21-57): returns immediately
when already loaded and not forced; otherwise issues the four dropdown
requests and — via `Promise.all` — either commits all four mapped lists and
sets the loaded-once flag, or (when any request rejects) leaves both
completely unchanged. `respond` is the backend's answer per master type. -/
def loadMasters (loadedOnce force : Bool) (masters : MastersState)
    (respond : String → Except Unit JVal) : LoadResult :=
  if loadedOnce && !force then ⟨[], masters, loadedOnce⟩
  else
    match respond "ROLE", respond "DEPARTMENT", respond "PROJECT",
        respond "MEASUREMENT" with
    | .ok r, .ok d, .ok p, .ok m =>
      ⟨masterTypes.map (fun t => ⟨t, "Active"⟩),
       ⟨mapResponse r, mapResponse d, mapResponse p, mapResponse m⟩, true⟩
    | _, _, _, _ =>
      ⟨masterTypes.map (fun t => ⟨t, "Active"⟩), masters, loadedOnce⟩

end MasterDataContextModel

section TablePanelModel

/- src/unnamed/part_001, TablePanel search filtering (lines 305-316). -/

mutual

/-- JS `String(v)` for a defined value. Integer-valued numbers print as in
JS; arrays join their elements with commas, null elements printing empty. -/
def jsStringOf : JVal → String
  | .jnull => "null"
  | .jbool b => if b then "true" else "false"
  | .jnum n => toString n
  | .jstr s => s
  | .jarr xs => String.intercalate "," (jsArrStrings xs)
  | .jobj _ => "[object Object]"

/-- Element strings of an array for `Array.prototype.toString`. -/
def jsArrStrings : List JVal → List String
  | [] => []
  | .jnull :: vs => "" :: jsArrStrings vs
  | v :: vs => jsStringOf v :: jsArrStrings vs

end

/-- `String(r[c.key] ?? "")` for one row and column key (a row is the
association list of one loaded record). -/
def cellString (row : List (String × JVal)) (key : String) : String :=
  jsStringOf (nullishD (row.lookup key) (.jstr ""))

/-- The `filtered` memo of TablePanel (part_001 lines 307-316): the rows
shown for a search box content `search`, configured column keys `columns`
and loaded rows `data`. -/
def tableFiltered (search : String) (columns : List String)
    (data : List (List (String × JVal))) : List (List (String × JVal)) :=
  if search = "" then data
  else
    data.filter (fun r =>
      columns.any (fun c =>
        jsIncludes (jsToLower (cellString r c)) (jsToLower search)))

end TablePanelModel

section AppContentModel

/- src/frontend/src/components/AppContent.js, the index-route element
   (lines 9-45). -/

/-- Outcome of the index route: the navigation target and whether local
storage was cleared on the way. -/
structure NavResult where
  dest : String
  cleared : Bool
  deriving DecidableEq

/-- `getDefaultRoute` (AppContent.js lines 11-15): no stored role (or the
falsy empty string) goes to /login, role "employee" (lowercased) to
/employee-dashboard, anything else to /dashboard. -/
def getDefaultRoute (role : Option String) : String :=
  match role with
  | none => "/login"
  | some r =>
    if r = "" then "/login"
    else if jsToLower r = "employee" then "/employee-dashboard"
    else "/dashboard"

/-- The index-route element (AppContent.js lines 21-45).
`decodeExpMillis t` models `JSON.parse(atob(t.split(".")[1])).exp * 1000`:
`none` when the decode/parse throws, `some none` when the payload parses
but `exp` does not coerce to a number (the product is NaN, and JS
`Date.now() >= NaN` is false), `some (some m)` when the expiry is the
number `m` of milliseconds. `now` is `Date.now()`. -/
def appIndexRoute (decodeExpMillis : String → Option (Option ℚ))
    (token : Option String) (role : Option String) (now : ℚ) : NavResult :=
  match token with
  | none => ⟨"/login", false⟩
  | some t =>
    if t = "" then ⟨"/login", false⟩
    else
      match decodeExpMillis t with
      | none => ⟨"/login", true⟩
      | some expiry =>
        if (match expiry with | some m => decide (now ≥ m) | none => false) then
          ⟨"/login", true⟩
        else ⟨getDefaultRoute role, false⟩

/-- C7 exactly as the spec states it: whenever a non-empty token is stored
and its payload either fails to decode and parse or its exp expiry time is
not strictly in the future, the index route clears local storage and
navigates to /login. -/
def specClaimIndexRoute : Prop :=
  ∀ (decodeExpMillis : String → Option (Option ℚ)) (t : String)
    (role : Option String) (now : ℚ),
    t ≠ "" →
    (decodeExpMillis t = none ∨
      ¬ ∃ m, decodeExpMillis t = some (some m) ∧ now < m) →
    appIndexRoute decodeExpMillis (some t) role now = ⟨"/login", true⟩

end AppContentModel

/-- C6: the `/employee-lifecycle/history` route renders the lifecycle
history view exactly when the stored role lowercases to "admin"; for any
other or missing stored role it renders a redirect to `/dashboard`. -/
theorem lifecycleHistory_admin_only (role : Option String) :
    (lifecycleHistoryRoute role = RouteElem.historyView ↔
      ∃ r, role = some r ∧ jsToLower r = "admin") ∧
    ((¬ ∃ r, role = some r ∧ jsToLower r = "admin") →
      lifecycleHistoryRoute role = RouteElem.redirect "/dashboard") := by
  constructor
  · constructor
    · intro h
      match role with
      | none => simp [lifecycleHistoryRoute] at h
      | some r =>
        refine ⟨r, rfl, ?_⟩
        by_contra hr
        simp [lifecycleHistoryRoute, hr] at h
    · rintro ⟨r, rfl, hr⟩
      simp [lifecycleHistoryRoute, hr]
  · intro h
    match role with
    | none => simp [lifecycleHistoryRoute]
    | some r =>
      have hr : ¬ jsToLower r = "admin" := fun hc => h ⟨r, rfl, hc⟩
      simp [lifecycleHistoryRoute, hr]

/-- Witness for C6: with stored role "Admin" the history view is rendered,
and with role "manager" the element is the `/dashboard` redirect. -/
theorem lifecycleHistory_admin_only_witness :
    lifecycleHistoryRoute (some "Admin") = RouteElem.historyView ∧
    lifecycleHistoryRoute (some "manager") = RouteElem.redirect "/dashboard" := by
  constructor
  · exact (lifecycleHistory_admin_only (some "Admin")).1.mpr ⟨"Admin", rfl, by decide⟩
  · exact (lifecycleHistory_admin_only (some "manager")).2
      (by rintro ⟨r, hr, hl⟩; cases hr; exact absurd hl (by decide))

/-- C8: in AddNewModal, selecting a department (key `department_id`) stores
the selected value, resets `managers` to the empty list and leaves every
other field unchanged; changing any other field — select or text input —
changes only that field. -/
theorem addNewModal_field_frame (form : String → FormVal) :
    (∀ v : ℚ,
      selectChange form "department_id" v "managers" = FormVal.list [] ∧
      selectChange form "department_id" v "department_id" = FormVal.num v ∧
      ∀ k, k ≠ "department_id" → k ≠ "managers" →
        selectChange form "department_id" v k = form k) ∧
    (∀ key v, key ≠ "department_id" →
      ∀ k, k ≠ key → selectChange form key v k = form k) ∧
    (∀ key s, key ≠ "department_id" →
      ∀ k, k ≠ key → inputChange form key s k = form k) := by
  refine ⟨?_, ?_, ?_⟩
  · intro v
    refine ⟨?_, ?_, ?_⟩
    · simp [selectChange]
    · simp [selectChange, Function.update]
    · intro k hk1 hk2
      simp [selectChange, Function.update_noteq hk2, Function.update_noteq hk1]
  · intro key v hkey k hk
    simp [selectChange, hkey, Function.update_noteq hk]
  · intro key s _ k hk
    simp [inputChange, Function.update_noteq hk]

/-- Witness for C8: on a concrete form, selecting department 3 clears the
managers list and keeps the name field, and editing the name field keeps
the department field. -/
theorem addNewModal_field_frame_witness :
    (selectChange (fun _ => FormVal.str "x") "department_id" 3 "managers"
        = FormVal.list []) ∧
    (selectChange (fun _ => FormVal.str "x") "department_id" 3 "name"
        = FormVal.str "x") ∧
    (inputChange (fun _ => FormVal.str "x") "name" "hello" "department_id"
        = FormVal.str "x") := by
  refine ⟨?_, ?_, ?_⟩
  · exact ((addNewModal_field_frame (fun _ => FormVal.str "x")).1 3).1
  · exact ((addNewModal_field_frame (fun _ => FormVal.str "x")).1 3).2.2 "name"
      (by decide) (by decide)
  · exact (addNewModal_field_frame (fun _ => FormVal.str "x")).2.2 "name" "hello"
      (by decide) "department_id" (by decide)

/-- Counterexample to C10 as stated: evaluating the modal does NOT always
fail with an unbound-reference error. On the initial render (empty reason,
`loading` and `previewLoading` false — reachable for any active department,
since `reason` is initialised to the empty string) `!reason` is true, JS
`||` short-circuits, `confirmed` is never resolved, and the disabled
expression evaluates without error to `true`. -/
theorem deactivateModal_initial_render_no_error :
    evalBE (deactivateModalEnv "" false false) deactivateDisabledExpr
      = Except.ok true := by
  rfl

/-- C10 (amended): `confirmed` is bound nowhere in
DeactivateDepartmentModal's scope, so evaluating the Deactivate button's
`disabled` expression fails with an unbound-reference error on `confirmed`
exactly when the reason text is non-empty and both loading flags are false
(in every other case `||` short-circuits before reaching `confirmed` and
yields `disabled = true`); consequently the expression never evaluates to
`false`, the button can never be enabled, and the `onConfirm`
department-deactivation action is unreachable through this modal. -/
theorem deactivateModal_disabled_spec (reason : String)
    (loading previewLoading : Bool) :
    "confirmed" ∉ deactivateModalScope ∧
    (evalBE (deactivateModalEnv reason loading previewLoading)
        deactivateDisabledExpr = Except.error "confirmed" ↔
      (reason ≠ "" ∧ loading = false ∧ previewLoading = false)) ∧
    (∀ b, evalBE (deactivateModalEnv reason loading previewLoading)
        deactivateDisabledExpr = Except.ok b → b = true) := by
  have key : ∀ rt l p : Bool,
      evalBE (deactivateModalEnvB rt l p) deactivateDisabledExpr =
        if rt && !l && !p then Except.error "confirmed" else Except.ok true := by
    intro rt l p
    cases rt <;> cases l <;> cases p <;> rfl
  have henv : evalBE (deactivateModalEnv reason loading previewLoading)
      deactivateDisabledExpr =
        if (reason != "") && !loading && !previewLoading then
          Except.error "confirmed"
        else Except.ok true := key (reason != "") loading previewLoading
  refine ⟨by decide, ?_, ?_⟩
  · rw [henv]
    by_cases hr : reason = "" <;>
      cases loading <;> cases previewLoading <;> simp [hr]
  · intro b
    rw [henv]
    by_cases hr : reason = "" <;>
      cases loading <;> cases previewLoading <;> simp [hr] <;>
      intro h <;> simp [h]

/-- Witness for the amended C10: with reason "ok" and both flags false the
evaluation fails with the unbound-reference error on `confirmed`. -/
theorem deactivateModal_disabled_spec_witness :
    evalBE (deactivateModalEnv "ok" false false) deactivateDisabledExpr
      = Except.error "confirmed" :=
  (deactivateModal_disabled_spec "ok" false false).2.1.mpr
    ⟨by decide, rfl, rfl⟩

theorem data_asString (l : List Char) : (List.asString l).data = l := rfl

theorem digitChar_toNat {n : Nat} (h : n < 10) :
    (digitChar n).toNat = 48 + n := by
  interval_cases n <;> rfl

theorem mem_decDigits (n : Nat) :
    ∀ c ∈ decDigits n, 48 ≤ c.toNat ∧ c.toNat ≤ 57 := by
  induction n using Nat.strong_induction_on with
  | _ n ih =>
    rw [decDigits]
    split
    · rename_i h
      intro c hc
      simp only [List.mem_singleton] at hc
      subst hc
      rw [digitChar_toNat h]
      omega
    · rename_i h
      intro c hc
      rw [List.mem_append] at hc
      rcases hc with hc | hc
      · exact ih (n / 10) (Nat.div_lt_self (by omega) (by omega)) c hc
      · simp only [List.mem_singleton] at hc
        subst hc
        rw [digitChar_toNat (Nat.mod_lt _ (by omega))]
        omega

theorem decDigits_ne_nil (n : Nat) : decDigits n ≠ [] := by
  rw [decDigits]
  split <;> simp

theorem digitsVal_append_singleton (l : List Char) (c : Char) :
    digitsVal (l ++ [c]) = 10 * digitsVal l + (c.toNat - 48) := by
  simp [digitsVal, List.foldl_append]

theorem digitsVal_decDigits (n : Nat) : digitsVal (decDigits n) = n := by
  induction n using Nat.strong_induction_on with
  | _ n ih =>
    rw [decDigits]
    split
    · rename_i h
      have hd := digitChar_toNat h
      simp [digitsVal]
      omega
    · rename_i h
      rw [digitsVal_append_singleton,
        ih (n / 10) (Nat.div_lt_self (by omega) (by omega)),
        digitChar_toNat (Nat.mod_lt _ (by omega))]
      omega

theorem foldl_digit_replicate_zero (k : Nat) :
    List.foldl (fun a c => 10 * a + (c.toNat - 48)) 0
      (List.replicate k '0') = 0 := by
  induction k with
  | zero => rfl
  | succ k ih =>
    rw [List.replicate_succ, List.foldl_cons]
    exact ih

theorem digitsVal_padStart2 (l : List Char) :
    digitsVal (padStart2 l) = digitsVal l := by
  have h := foldl_digit_replicate_zero (2 - l.length)
  simp [padStart2, digitsVal, List.foldl_append, h]

theorem padStart2_ne_nil {l : List Char} (h : l ≠ []) : padStart2 l ≠ [] := by
  intro hc
  exact h (List.append_eq_nil.mp hc).2

theorem mem_padStart2 {c : Char} {l : List Char} (h : c ∈ padStart2 l) :
    c = '0' ∨ c ∈ l := by
  rw [padStart2, List.mem_append] at h
  rcases h with h | h
  · exact Or.inl (List.eq_of_mem_replicate h)
  · exact Or.inr h

theorem isPrefixOf_self_append (s t : List Char) :
    s.isPrefixOf (s ++ t) = true := by
  induction s with
  | nil => cases t <;> simp [List.isPrefixOf]
  | cons c cs ih => simpa [List.isPrefixOf] using ih

theorem findSplit_append (a b : List Char) (ha : ∀ c ∈ a, c ≠ '-') :
    findSplit ['-', 'W'] (a ++ '-' :: 'W' :: b) = some (a, b) := by
  induction a with
  | nil =>
    have h := isPrefixOf_self_append ['-', 'W'] b
    simp only [List.nil_append]
    simp [findSplit, h]
  | cons c cs ih =>
    have hc : c ≠ '-' := ha c (by simp)
    have hbeq : (('-' : Char) == c) = false :=
      beq_eq_false_iff_ne.mpr (Ne.symm hc)
    have ih2 := ih (fun x hx => ha x (by simp [hx]))
    simp [findSplit, List.isPrefixOf, hbeq, ih2]

theorem findSplit_none (b : List Char) (hb : ∀ c ∈ b, c ≠ '-') :
    findSplit ['-', 'W'] b = none := by
  induction b with
  | nil => rfl
  | cons c cs ih =>
    have hc : c ≠ '-' := hb c (by simp)
    have hbeq : (('-' : Char) == c) = false :=
      beq_eq_false_iff_ne.mpr (Ne.symm hc)
    have ih2 := ih (fun x hx => hb x (by simp [hx]))
    simp [findSplit, List.isPrefixOf, hbeq, ih2]

theorem splitAux_of_none (sep : List Char) (f : Nat) (l : List Char)
    (h : findSplit sep l = none) : splitAux sep f l = [l] := by
  cases f with
  | zero => rfl
  | succ n => simp [splitAux, h]

theorem decDigits_no_hyphen (n : Nat) : ∀ c ∈ decDigits n, c ≠ '-' := by
  intro c hc he
  rw [he] at hc
  exact absurd (mem_decDigits n _ hc) (by decide)

theorem padStart2_decDigits_no_hyphen (n : Nat) :
    ∀ c ∈ padStart2 (decDigits n), c ≠ '-' := by
  intro c hc he
  rcases mem_padStart2 hc with h | h
  · rw [he] at h
    exact absurd h (by decide)
  · exact decDigits_no_hyphen n c h he

theorem jsSplit_formatWeekValue (y w : Nat) :
    jsSplit (formatWeekValue y w) "-W" =
      [(decDigits y).asString, (padStart2 (decDigits w)).asString] := by
  have hdata : (formatWeekValue y w).data =
      decDigits y ++ '-' :: 'W' :: padStart2 (decDigits w) := rfl
  have hsep : ("-W" : String).data = ['-', 'W'] := rfl
  unfold jsSplit
  rw [hdata, hsep, splitAux, findSplit_append _ _ (decDigits_no_hyphen y)]
  dsimp only
  rw [splitAux_of_none _ _ _
    (findSplit_none _ (padStart2_decDigits_no_hyphen w))]
  rfl

theorem jsIncludes_formatWeekValue (y w : Nat) :
    jsIncludes (formatWeekValue y w) "-W" = true := by
  have hdata : (formatWeekValue y w).data =
      decDigits y ++ '-' :: 'W' :: padStart2 (decDigits w) := rfl
  have hsep : ("-W" : String).data = ['-', 'W'] := rfl
  unfold jsIncludes
  rw [hsep, hdata, if_neg (by decide),
    findSplit_append _ _ (decDigits_no_hyphen y)]
  rfl

theorem formatWeekValue_ne_empty (y w : Nat) : formatWeekValue y w ≠ "" := by
  intro h
  have hd : decDigits y ++ '-' :: 'W' :: padStart2 (decDigits w) =
      ([] : List Char) := congrArg String.data h
  rcases List.append_eq_nil.mp hd with ⟨-, hcons⟩
  exact absurd hcons (by simp)

/-- C3: week-string parsing round-trips with week-string formatting. For
every `Number` coercion that is correct on all-digit strings (as the JS
builtin is), every year `y` and every week `w` with `1 ≤ w ≤ 99`,
`parseWeek (formatWeekValue y w)` returns year `y` and week `w`; and for
every string not containing the substring `-W` (the empty string included)
`parseWeek` returns `{year: null, week: null}`. -/
theorem parseWeek_formatWeekValue_roundtrip (jsNum : String → Option ℚ)
    (hnum : NumOnDigits jsNum) :
    (∀ y w : Nat, 1 ≤ w → w ≤ 99 →
      parseWeek jsNum (formatWeekValue y w) =
        ⟨NumOrNull.num (y : ℚ), NumOrNull.num (w : ℚ)⟩) ∧
    (∀ s : String, jsIncludes s "-W" = false →
      parseWeek jsNum s = ⟨NumOrNull.null, NumOrNull.null⟩) := by
  constructor
  · intro y w _ _
    unfold parseWeek
    rw [if_neg]
    · rw [jsSplit_formatWeekValue]
      dsimp only
      have h1 : jsNum (decDigits y).asString =
          some ((digitsVal (decDigits y) : Nat) : ℚ) := by
        apply hnum
        · rw [data_asString]
          exact decDigits_ne_nil y
        · rw [data_asString]
          exact mem_decDigits y
      have h2 : jsNum (padStart2 (decDigits w)).asString =
          some ((digitsVal (padStart2 (decDigits w)) : Nat) : ℚ) := by
        apply hnum
        · rw [data_asString]
          exact padStart2_ne_nil (decDigits_ne_nil w)
        · rw [data_asString]
          intro c hc
          rcases mem_padStart2 hc with h | h
          · rw [h]
            decide
          · exact mem_decDigits w c h
      rw [h1, h2, digitsVal_decDigits, digitsVal_padStart2, digitsVal_decDigits]
      rfl
    · rintro (h | h)
      · exact formatWeekValue_ne_empty y w h
      · rw [jsIncludes_formatWeekValue] at h
        exact absurd h (by simp)
  · intro s hs
    unfold parseWeek
    rw [if_pos (Or.inr hs)]

theorem jsNumDigits_numOnDigits : NumOnDigits jsNumDigits := by
  intro s h1 h2
  rw [jsNumDigits, if_pos ⟨h1, h2⟩]

/-- Witness for C3: with the sample digit-string coercion, formatting year
2025 week 5 and parsing it back yields 2025 and 5, and the `-W`-free string
"hello" parses to nulls. -/
theorem parseWeek_formatWeekValue_roundtrip_witness :
    parseWeek jsNumDigits (formatWeekValue 2025 5) =
      ⟨NumOrNull.num ((2025 : Nat) : ℚ), NumOrNull.num ((5 : Nat) : ℚ)⟩ ∧
    parseWeek jsNumDigits "hello" = ⟨NumOrNull.null, NumOrNull.null⟩ :=
  ⟨(parseWeek_formatWeekValue_roundtrip jsNumDigits
      jsNumDigits_numOnDigits).1 2025 5 (by decide) (by decide),
   (parseWeek_formatWeekValue_roundtrip jsNumDigits
      jsNumDigits_numOnDigits).2 "hello" (by decide)⟩

/-- C1: for a score row index `i` and a typed value `v`, handleScoreChange
updates entry `i` of the scores array exactly when `v` is the empty string,
the string "0", or a string whose `Number` coercion after leading-zero
stripping lies between 0 and 100 inclusive (the modal state is then left
untouched); for every other value — non-numeric, negative, or above 100 —
the validation modal is opened and the scores array is left completely
unchanged. Holds for every `Number` coercion `jsNum`. -/
theorem handleScoreChange_spec (jsNum : String → Option ℚ)
    (scores : List String) (modal : ModalState) (i : Nat) (v : String)
    (hi : i < scores.length) :
    ((v = "" ∨ v = "0" ∨
        ∃ n, jsNum (stripLeadingZeros v) = some n ∧ 0 ≤ n ∧ n ≤ 100) →
      handleScoreChange jsNum scores modal i v =
        (scores.set i
          (if v = "" then "" else if v = "0" then "0"
           else stripLeadingZeros v), modal)) ∧
    ((¬ (v = "" ∨ v = "0" ∨
        ∃ n, jsNum (stripLeadingZeros v) = some n ∧ 0 ≤ n ∧ n ≤ 100)) →
      (handleScoreChange jsNum scores modal i v).1 = scores ∧
      (handleScoreChange jsNum scores modal i v).2.shown = true) := by
  clear hi
  constructor
  · intro hv
    by_cases h1 : v = ""
    · subst h1
      simp [handleScoreChange]
    · by_cases h2 : v = "0"
      · subst h2
        simp [handleScoreChange, show ("0" : String) ≠ "" from by decide]
      · rcases hv with h | h | ⟨n, hn, h0, h100⟩
        · exact absurd h h1
        · exact absurd h h2
        · simp [handleScoreChange, h1, h2, hn, not_lt.mpr h0,
            not_lt.mpr h100]
  · intro hv
    push_neg at hv
    obtain ⟨h1, h2, h3⟩ := hv
    cases hjs : jsNum (stripLeadingZeros v) with
    | none => simp [handleScoreChange, h1, h2, hjs]
    | some n =>
      by_cases hneg : n < 0
      · simp [handleScoreChange, h1, h2, hjs, hneg]
      · have h0 : 0 ≤ n := le_of_not_lt hneg
        have h100 : 100 < n := h3 n hjs h0
        simp [handleScoreChange, h1, h2, hjs, hneg, h100]

/-- Witness for C1: typing "07" into row 0 strips the leading zero and
stores "7" without touching the modal. -/
theorem handleScoreChange_spec_witness :
    handleScoreChange jsNumDigits ["", "5"] ⟨false, ""⟩ 0 "07" =
      (["7", "5"], ⟨false, ""⟩) := by
  have h := (handleScoreChange_spec jsNumDigits ["", "5"] ⟨false, ""⟩ 0 "07"
    (by decide)).1
    (Or.inr (Or.inr ⟨7, by decide, by decide, by decide⟩))
  exact h

theorem scoreInvalid_eq_false_iff (jsNum : String → Option ℚ) (s : String) :
    scoreInvalid jsNum s = false ↔
      ∃ n, jsNum s = some n ∧ 0 ≤ n ∧ n ≤ 100 := by
  unfold scoreInvalid
  cases hjs : jsNum s with
  | none => simp
  | some n => simp [not_lt]

theorem foldl_add_map (g : String → ℚ) (l : List String) (a : ℚ) :
    l.foldl (fun sum val => sum + g val) a = a + (l.map g).sum := by
  induction l generalizing a with
  | nil => simp
  | cons x xs ih => simp [ih, add_assoc]

theorem map_getD_of_map_some (jsNum : String → Option ℚ) :
    ∀ (l : List String) (ns : List ℚ), l.map jsNum = ns.map some →
      l.map (fun v => (jsNum v).getD 0) = ns := by
  intro l
  induction l with
  | nil =>
    intro ns h
    cases ns with
    | nil => rfl
    | cons n ns2 => simp at h
  | cons x xs ih =>
    intro ns h
    cases ns with
    | nil => simp at h
    | cons n ns2 =>
      simp only [List.map_cons, List.cons.injEq] at h
      simp [h.1, ih ns2 h.2]

theorem mem_of_map_some (jsNum : String → Option ℚ) :
    ∀ (l : List String) (ns : List ℚ), l.map jsNum = ns.map some →
      ∀ x ∈ ns, ∃ s ∈ l, jsNum s = some x := by
  intro l
  induction l with
  | nil =>
    intro ns h x hx
    cases ns with
    | nil => simp at hx
    | cons n ns2 => simp at h
  | cons y ys ih =>
    intro ns h x hx
    cases ns with
    | nil => simp at hx
    | cons n ns2 =>
      simp only [List.map_cons, List.cons.injEq] at h
      rcases List.mem_cons.mp hx with rfl | hx2
      · exact ⟨y, by simp, h.1⟩
      · obtain ⟨s, hs, hjs⟩ := ih ns2 h.2 x hx2
        exact ⟨s, by simp [hs], hjs⟩

theorem handleSubmit_request_of_guards (jsNum : String → Option ℚ)
    (st : SubmitState) (h : submitGuards jsNum st) :
    handleSubmit jsNum st =
      SubmitResult.request
        (if optIdTruthy st.evaluationId ∧ st.mode = "edit" then
          HttpMethod.put
         else HttpMethod.post)
        ⟨jsTrim st.employeeId, (parseWeek jsNum st.selectedWeek).year,
         (parseWeek jsNum st.selectedWeek).week,
         st.scores.foldl (fun sum val => sum + ((jsNum val).getD 0)) 0⟩ := by
  obtain ⟨h1, h2, h3, h4, h5, h6, h7⟩ := h
  have hall : st.scores.all (fun s => s != "") = true := by
    rw [List.all_eq_true]
    intro s hs
    exact bne_iff_ne.mpr (h4 s hs)
  have hany : ¬ st.scores.any (scoreInvalid jsNum) = true := by
    intro hc
    obtain ⟨s, hs, hinv⟩ := List.any_eq_true.mp hc
    have hfalse := (scoreInvalid_eq_false_iff jsNum s).mpr (h5 s hs)
    rw [hfalse] at hinv
    cases hinv
  unfold handleSubmit
  rw [if_neg h1, if_neg h2, if_neg (not_not_intro ⟨h3, hall⟩), if_neg hany,
    if_neg (not_not_intro h6), if_neg h7]
  by_cases hc : optIdTruthy st.evaluationId ∧ st.mode = "edit" <;> simp [hc]

theorem handleSubmit_modal_of_not_guards (jsNum : String → Option ℚ)
    (st : SubmitState) (h : ¬ submitGuards jsNum st) :
    ∃ msg, handleSubmit jsNum st = SubmitResult.modal msg := by
  by_cases g1 : st.employeeId = ""
  · refine ⟨"Please search and select an employee first.", ?_⟩
    unfold handleSubmit
    rw [if_pos g1]
  by_cases g2 : st.employeeName = ""
  · refine ⟨"Please search and load employee details before entering performance metrics.", ?_⟩
    unfold handleSubmit
    rw [if_neg g1, if_pos g2]
  by_cases g3 : st.scores.length = st.measurements.length ∧
      st.scores.all (fun s => s != "") = true
  case neg =>
    refine ⟨"Please fill all performance metrics before submitting.", ?_⟩
    unfold handleSubmit
    rw [if_neg g1, if_neg g2, if_pos g3]
  by_cases g4 : st.scores.any (scoreInvalid jsNum) = true
  · refine ⟨"All scores must be valid numbers between 0 and 100.", ?_⟩
    unfold handleSubmit
    rw [if_neg g1, if_neg g2, if_neg (not_not_intro g3), if_pos g4]
  by_cases g5 : jsToLower st.userRole = "admin" ∨
      jsToLower st.userRole = "manager"
  case neg =>
    refine ⟨"Only Admin or Manager can submit evaluations.", ?_⟩
    unfold handleSubmit
    rw [if_neg g1, if_neg g2, if_neg (not_not_intro g3), if_neg g4, if_pos g5]
  by_cases g6 : st.selectedWeek = ""
  · refine ⟨"Please select a week for evaluation.", ?_⟩
    unfold handleSubmit
    rw [if_neg g1, if_neg g2, if_neg (not_not_intro g3), if_neg g4,
      if_neg (not_not_intro g5), if_pos g6]
  exfalso
  apply h
  refine ⟨g1, g2, g3.1, ?_, ?_, g5, g6⟩
  · intro s hs
    exact bne_iff_ne.mp (List.all_eq_true.mp g3.2 s hs)
  · intro s hs
    apply (scoreInvalid_eq_false_iff jsNum s).mp
    by_contra hc
    rw [Bool.not_eq_false] at hc
    exact g4 (List.any_eq_true.mpr ⟨s, hs, hc⟩)

/-- C2: handleSubmit sends an HTTP request (PUT when an evaluation id is
loaded and the form is in edit mode, POST otherwise) exactly when all six
guards pass — employee ID set, employee name loaded, one non-empty score
per active measurement, every score a number between 0 and 100, stored
role lowercasing to admin or manager, and a week selected; when any guard
fails a validation modal is shown instead and no request is sent; and a
sent request's total_score is the sum of the entered scores, which is at
most 100 times the number of measurements. Holds for every `Number`
coercion `jsNum`. -/
theorem handleSubmit_spec (jsNum : String → Option ℚ) (st : SubmitState) :
    ((∃ m p, handleSubmit jsNum st = SubmitResult.request m p) ↔
      submitGuards jsNum st) ∧
    (¬ submitGuards jsNum st →
      ∃ msg, handleSubmit jsNum st = SubmitResult.modal msg) ∧
    (∀ ns : List ℚ, st.scores.map jsNum = ns.map some →
      submitGuards jsNum st →
      handleSubmit jsNum st =
        SubmitResult.request
          (if optIdTruthy st.evaluationId ∧ st.mode = "edit" then
            HttpMethod.put
           else HttpMethod.post)
          ⟨jsTrim st.employeeId, (parseWeek jsNum st.selectedWeek).year,
           (parseWeek jsNum st.selectedWeek).week, ns.sum⟩ ∧
      ns.sum ≤ 100 * (st.measurements.length : ℚ)) := by
  refine ⟨⟨?_, ?_⟩, handleSubmit_modal_of_not_guards jsNum st, ?_⟩
  · rintro ⟨m, p, hreq⟩
    by_contra hg
    obtain ⟨msg, hmod⟩ := handleSubmit_modal_of_not_guards jsNum st hg
    rw [hmod] at hreq
    cases hreq
  · intro hg
    exact ⟨_, _, handleSubmit_request_of_guards jsNum st hg⟩
  · intro ns hmap hg
    have hreq := handleSubmit_request_of_guards jsNum st hg
    have hsum : st.scores.foldl
        (fun sum val => sum + ((jsNum val).getD 0)) 0 = ns.sum := by
      rw [foldl_add_map, map_getD_of_map_some jsNum st.scores ns hmap,
        zero_add]
    constructor
    · rw [hreq, hsum]
    · have h1 : st.scores.length = ns.length := by
        have := congrArg List.length hmap
        simpa using this
      have hlen : ns.length = st.measurements.length := by
        rw [← h1]
        exact hg.2.2.1
      have hbound : ∀ x ∈ ns, x ≤ 100 := by
        intro x hx
        obtain ⟨s, hs, hjs⟩ := mem_of_map_some jsNum st.scores ns hmap x hx
        obtain ⟨n, hn, h0n, h100n⟩ := hg.2.2.2.2.1 s hs
        rw [hjs] at hn
        rw [Option.some.inj hn]
        exact h100n
      calc ns.sum ≤ ns.length • (100 : ℚ) :=
            List.sum_le_card_nsmul ns 100 hbound
        _ = (ns.length : ℚ) * 100 := nsmul_eq_mul _ _
        _ = (st.measurements.length : ℚ) * 100 := by rw [hlen]
        _ = 100 * (st.measurements.length : ℚ) := mul_comm _ _

/-- Witness for C2: a fully valid add-mode submission with scores 50 and 60
issues a POST whose total_score is 110. -/
theorem handleSubmit_spec_witness :
    handleSubmit jsNumDigits
      ⟨"EMP1", "Jo", ["50", "60"], ["A", "B"], "Admin", "2025-W05",
        none, "add"⟩ =
      SubmitResult.request HttpMethod.post
        ⟨"EMP1", NumOrNull.num ((2025 : Nat) : ℚ),
          NumOrNull.num ((5 : Nat) : ℚ), ([50, 60] : List ℚ).sum⟩ := by
  have hg : submitGuards jsNumDigits
      ⟨"EMP1", "Jo", ["50", "60"], ["A", "B"], "Admin", "2025-W05",
        none, "add"⟩ := by
    refine ⟨by decide, by decide, by decide, by decide, ?_,
      Or.inl (by decide), by decide⟩
    intro s hs
    rcases List.mem_cons.mp hs with rfl | hs2
    · exact ⟨50, by decide, by decide, by decide⟩
    · rcases List.mem_singleton.mp hs2 with rfl
      exact ⟨60, by decide, by decide, by decide⟩
  have h := ((handleSubmit_spec jsNumDigits
      ⟨"EMP1", "Jo", ["50", "60"], ["A", "B"], "Admin", "2025-W05",
        none, "add"⟩).2.2 [50, 60] (by decide) hg).1
  rw [h]
  rfl

/-- C4: the error-modal message has fixed precedence: the first field's
message of `data.errors` when `errors` is a (truthy) object; otherwise
`data.detail` when present (truthy); otherwise `data.message` when present
(truthy); otherwise the response data itself when it is a string; otherwise
the fixed fallback message. -/
theorem extractBackendError_precedence :
    (∀ (fs : List (String × JVal)) (k : String) (v : JVal)
        (rest : List (String × JVal)),
      fs.lookup "errors" = some (JVal.jobj ((k, v) :: rest)) →
      extractBackendError (some (JVal.jobj fs)) = some v) ∧
    (∀ (data : Option JVal) (d : JVal), errorsIsObject data = false →
      jsGetOpt data "detail" = some d → truthy d = true →
      extractBackendError data = some d) ∧
    (∀ (data : Option JVal) (m : JVal), errorsIsObject data = false →
      truthyOpt (jsGetOpt data "detail") = false →
      jsGetOpt data "message" = some m → truthy m = true →
      extractBackendError data = some m) ∧
    (∀ s : String, extractBackendError (some (JVal.jstr s)) =
      some (JVal.jstr s)) ∧
    (∀ data : Option JVal, errorsIsObject data = false →
      truthyOpt (jsGetOpt data "detail") = false →
      truthyOpt (jsGetOpt data "message") = false →
      (∀ s, data ≠ some (JVal.jstr s)) →
      extractBackendError data =
        some (JVal.jstr "Unable to process your request. Please try again.")) := by
  refine ⟨?_, ?_, ?_, ?_, ?_⟩
  · intro fs k v rest h
    have hg : jsGetOpt (some (JVal.jobj fs)) "errors" =
        some (JVal.jobj ((k, v) :: rest)) := by
      simp [jsGetOpt, jsField, h]
    have hc : errorsIsObject (some (JVal.jobj fs)) = true := by
      rw [errorsIsObject, hg]
      rfl
    rw [extractBackendError, if_pos hc, hg]
    rfl
  · intro data d h1 h2 h3
    rw [extractBackendError, if_neg (by rw [h1]; exact Bool.false_ne_true),
      if_pos (by rw [h2, truthyOpt, h3]), h2]
  · intro data m h1 h2 h3 h4
    rw [extractBackendError, if_neg (by rw [h1]; exact Bool.false_ne_true),
      if_neg (by rw [h2]; exact Bool.false_ne_true),
      if_pos (by rw [h3, truthyOpt, h4]), h3]
  · intro s
    rw [extractBackendError]
    rfl
  · intro data h1 h2 h3 h4
    rw [extractBackendError, if_neg (by rw [h1]; exact Bool.false_ne_true),
      if_neg (by rw [h2]; exact Bool.false_ne_true),
      if_neg (by rw [h3]; exact Bool.false_ne_true)]
    cases data with
    | none => rfl
    | some v =>
      cases v with
      | jnull => rfl
      | jbool b => rfl
      | jnum n => rfl
      | jstr s => exact absurd rfl (h4 s)
      | jarr xs => rfl
      | jobj fields => rfl

/-- Witness for C4: a DRF-style body `{errors: {week: "Invalid week"}}`
surfaces the first field's message "Invalid week". -/
theorem extractBackendError_precedence_witness :
    extractBackendError
      (some (JVal.jobj
        [("errors", JVal.jobj [("week", JVal.jstr "Invalid week")])])) =
      some (JVal.jstr "Invalid week") :=
  extractBackendError_precedence.1
    [("errors", JVal.jobj [("week", JVal.jstr "Invalid week")])]
    "week" (JVal.jstr "Invalid week") [] rfl

/-- C5: when loadMasters proceeds (not yet loaded, or forced) it issues
exactly the four dropdown requests — types ROLE, DEPARTMENT, PROJECT,
MEASUREMENT, each with status "Active"; when all four responses arrive it
commits the masters state in a single update holding all four mapped lists
and sets the loaded-once flag; when any of the four requests fails, the
masters state and the loaded-once flag are left completely unchanged; and
in every case the committed state is either the old one or the fully
mapped new one — no partially-updated master data is observable. -/
theorem loadMasters_spec (loadedOnce force : Bool) (masters : MastersState)
    (respond : String → Except Unit JVal)
    (h : ¬ (loadedOnce = true ∧ force = false)) :
    (loadMasters loadedOnce force masters respond).requests =
      [⟨"ROLE", "Active"⟩, ⟨"DEPARTMENT", "Active"⟩,
       ⟨"PROJECT", "Active"⟩, ⟨"MEASUREMENT", "Active"⟩] ∧
    (∀ r d p m, respond "ROLE" = .ok r → respond "DEPARTMENT" = .ok d →
      respond "PROJECT" = .ok p → respond "MEASUREMENT" = .ok m →
      (loadMasters loadedOnce force masters respond).masters =
        ⟨mapResponse r, mapResponse d, mapResponse p, mapResponse m⟩ ∧
      (loadMasters loadedOnce force masters respond).loadedOnce = true) ∧
    ((∃ t ∈ masterTypes, respond t = .error ()) →
      (loadMasters loadedOnce force masters respond).masters = masters ∧
      (loadMasters loadedOnce force masters respond).loadedOnce =
        loadedOnce) ∧
    ((loadMasters loadedOnce force masters respond).masters = masters ∨
      ∃ r d p m, respond "ROLE" = .ok r ∧ respond "DEPARTMENT" = .ok d ∧
        respond "PROJECT" = .ok p ∧ respond "MEASUREMENT" = .ok m ∧
        (loadMasters loadedOnce force masters respond).masters =
          ⟨mapResponse r, mapResponse d, mapResponse p, mapResponse m⟩) := by
  have hskip : (loadedOnce && !force) = false := by
    cases loadedOnce <;> cases force <;> simp_all
  refine ⟨?_, ?_, ?_, ?_⟩
  · unfold loadMasters
    rw [hskip]
    cases respond "ROLE" <;> cases respond "DEPARTMENT" <;>
      cases respond "PROJECT" <;> cases respond "MEASUREMENT" <;> rfl
  · intro r d p m h1 h2 h3 h4
    unfold loadMasters
    rw [hskip, h1, h2, h3, h4]
    exact ⟨rfl, rfl⟩
  · rintro ⟨t, ht, herr⟩
    unfold loadMasters
    rw [hskip]
    cases h1 : respond "ROLE" with
    | error e => exact ⟨rfl, rfl⟩
    | ok r =>
      cases h2 : respond "DEPARTMENT" with
      | error e => exact ⟨rfl, rfl⟩
      | ok d =>
        cases h3 : respond "PROJECT" with
        | error e => exact ⟨rfl, rfl⟩
        | ok p =>
          cases h4 : respond "MEASUREMENT" with
          | error e => exact ⟨rfl, rfl⟩
          | ok m =>
            exfalso
            simp only [masterTypes, List.mem_cons, List.mem_singleton,
              List.not_mem_nil, or_false] at ht
            rcases ht with rfl | rfl | rfl | rfl
            · rw [herr] at h1
              cases h1
            · rw [herr] at h2
              cases h2
            · rw [herr] at h3
              cases h3
            · rw [herr] at h4
              cases h4
  · unfold loadMasters
    rw [hskip]
    cases h1 : respond "ROLE" with
    | error e => exact Or.inl rfl
    | ok r =>
      cases h2 : respond "DEPARTMENT" with
      | error e => exact Or.inl rfl
      | ok d =>
        cases h3 : respond "PROJECT" with
        | error e => exact Or.inl rfl
        | ok p =>
          cases h4 : respond "MEASUREMENT" with
          | error e => exact Or.inl rfl
          | ok m => exact Or.inr ⟨r, d, p, m, rfl, rfl, rfl, rfl, rfl⟩

/-- Witness for C5: a first load where every dropdown returns an empty
array issues the four requests and sets the loaded-once flag. -/
theorem loadMasters_spec_witness :
    (loadMasters false false ⟨[], [], [], []⟩
        (fun _ => Except.ok (JVal.jarr []))).requests =
      [⟨"ROLE", "Active"⟩, ⟨"DEPARTMENT", "Active"⟩,
       ⟨"PROJECT", "Active"⟩, ⟨"MEASUREMENT", "Active"⟩] ∧
    (loadMasters false false ⟨[], [], [], []⟩
        (fun _ => Except.ok (JVal.jarr []))).loadedOnce = true := by
  have h := loadMasters_spec false false ⟨[], [], [], []⟩
    (fun _ => Except.ok (JVal.jarr [])) (by simp)
  exact ⟨h.1, (h.2.1 (JVal.jarr []) (JVal.jarr []) (JVal.jarr [])
    (JVal.jarr []) rfl rfl rfl rfl).2⟩

/-- Counterexample to C7 as stated: the index route does NOT navigate to
/login for every token whose exp expiry time fails to be strictly in the
future. A token whose payload decodes and parses but carries no numeric
exp — e.g. the token "h.e30.s", whose middle segment "e30" base64-decodes
to the JSON "{}" — makes `payload.exp * 1000` NaN; `Date.now() >= NaN` is
false, so with a stored role "admin" the user is navigated to /dashboard
without clearing local storage, although such an expiry is not strictly in
the future. -/
theorem appIndexRoute_claim_counterexample : ¬ specClaimIndexRoute := by
  intro h
  have happ := h (fun _ => some none) "h.e30.s" (some "admin") 0
    (by decide)
    (Or.inr (by rintro ⟨m, hm, -⟩; cases hm))
  have hval : appIndexRoute (fun _ => some none) (some "h.e30.s")
      (some "admin") 0 = ⟨"/dashboard", false⟩ := rfl
  rw [hval] at happ
  exact absurd happ (by decide)

/-- C7 (amended): on the index route, a missing (or empty, hence falsy)
token navigates to /login without clearing storage; a token whose payload
fails to decode and parse clears storage and navigates to /login; a token
whose exp coerces to a number not strictly in the future clears storage
and navigates to /login; a token with a numeric exp strictly in the future
navigates by role; and a token whose payload parses but whose exp is
missing or non-numeric also navigates by role (the NaN comparison is
false), storage untouched. The role routing sends a missing or empty role
to /login, a role lowercasing to "employee" to /employee-dashboard and any
other role to /dashboard. -/
theorem appIndexRoute_spec (decode : String → Option (Option ℚ))
    (role : Option String) (now : ℚ) :
    appIndexRoute decode none role now = ⟨"/login", false⟩ ∧
    appIndexRoute decode (some "") role now = ⟨"/login", false⟩ ∧
    (∀ t, t ≠ "" → decode t = none →
      appIndexRoute decode (some t) role now = ⟨"/login", true⟩) ∧
    (∀ t m, t ≠ "" → decode t = some (some m) → now ≥ m →
      appIndexRoute decode (some t) role now = ⟨"/login", true⟩) ∧
    (∀ t m, t ≠ "" → decode t = some (some m) → now < m →
      appIndexRoute decode (some t) role now =
        ⟨getDefaultRoute role, false⟩) ∧
    (∀ t, t ≠ "" → decode t = some none →
      appIndexRoute decode (some t) role now =
        ⟨getDefaultRoute role, false⟩) ∧
    (getDefaultRoute none = "/login" ∧ getDefaultRoute (some "") = "/login" ∧
      ∀ r, r ≠ "" → getDefaultRoute (some r) =
        (if jsToLower r = "employee" then "/employee-dashboard"
         else "/dashboard")) := by
  refine ⟨rfl, rfl, ?_, ?_, ?_, ?_, rfl, rfl, ?_⟩
  · intro t ht hd
    simp [appIndexRoute, ht, hd]
  · intro t m ht hd hge
    simp [appIndexRoute, ht, hd, hge]
  · intro t m ht hd hlt
    simp [appIndexRoute, ht, hd, not_le.mpr hlt]
  · intro t ht hd
    simp [appIndexRoute, ht, hd]
  · intro r hr
    simp [getDefaultRoute, hr]

/-- Witness for the amended C7: an undecodable token (every decode result
is a throw) with a stored admin role clears storage and goes to /login,
and a parsed token without numeric exp goes to the role's dashboard. -/
theorem appIndexRoute_spec_witness :
    appIndexRoute (fun _ => none) (some "x.y.z") (some "admin") 0 =
      ⟨"/login", true⟩ ∧
    appIndexRoute (fun _ => some none) (some "x.y.z") (some "admin") 0 =
      ⟨"/dashboard", false⟩ := by
  constructor
  · exact (appIndexRoute_spec (fun _ => none) (some "admin") 0).2.2.1
      "x.y.z" (by decide) rfl
  · have h := (appIndexRoute_spec (fun _ => some none) (some "admin")
      0).2.2.2.2.2.1 "x.y.z" (by decide) rfl
    rw [h]
    rfl

/-- C9: with an empty search box the displayed rows are exactly the loaded
rows; the displayed rows are always a sublist of the loaded rows (relative
order preserved); and with a non-empty query a row is displayed exactly
when it is loaded and at least one configured column's stringified value
contains the lowercased query, compared case-insensitively. -/
theorem tablePanel_filter_spec (search : String) (columns : List String)
    (data : List (List (String × JVal))) :
    (search = "" → tableFiltered search columns data = data) ∧
    (tableFiltered search columns data).Sublist data ∧
    (search ≠ "" → ∀ r, r ∈ tableFiltered search columns data ↔
      (r ∈ data ∧ columns.any (fun c =>
        jsIncludes (jsToLower (cellString r c)) (jsToLower search))
          = true)) := by
  refine ⟨?_, ?_, ?_⟩
  · intro h
    simp [tableFiltered, h]
  · by_cases h : search = ""
    · simp [tableFiltered, h]
    · rw [tableFiltered, if_neg h]
      exact List.filter_sublist _
  · intro h r
    rw [tableFiltered, if_neg h, List.mem_filter]

/-- Witness for C9: searching "eng" over a name column keeps the row whose
name is "Engineering" (case-insensitively). -/
theorem tablePanel_filter_spec_witness :
    [("name", JVal.jstr "Engineering")] ∈
      tableFiltered "eng" ["name"]
        [[("name", JVal.jstr "Engineering")], [("name", JVal.jstr "HR")]] :=
  ((tablePanel_filter_spec "eng" ["name"]
      [[("name", JVal.jstr "Engineering")], [("name", JVal.jstr "HR")]]).2.2
    (by decide) [("name", JVal.jstr "Engineering")]).mpr
    ⟨List.mem_cons_self _ _, by decide⟩

end EGrovity
